import Mathlib

/-!
Verification of the muster-hub infrastructure core against its specification.

Shallow embedding of the Rust sources:
* `src/infra/vault/src/engine.rs`, `src/infra/vault/src/types.rs`  — vault AEAD framing
* `src/infra/storage/src/security.rs`, `maintenance.rs`            — path sandbox, tmp purge
* `src/infra/events/src/bus.rs`                                    — typed event bus
* `src/crates/features/licensing/src/validator.rs`, `constraints.rs` — license hardware check

Bytes are modelled as `List Nat`, external primitives (AEAD ciphers, LZ4,
the filesystem canonicalizer, the hardware-id generator) as explicit
function parameters, and Rust `Result` as `Except` / panics as `Option`.
-/

deriving instance DecidableEq for Except

namespace MHub

namespace Vault

/-- Payload header version (`PAYLOAD_VERSION_V1` in `types.rs`). -/
def PAYLOAD_VERSION_V1 : Nat := 1

/-- Header layout `[version: u8][flags: u8]` (`HEADER_LEN` in `types.rs`). -/
def HEADER_LEN : Nat := 2

/-- AEAD nonce length, 96-bit (`NONCE_LEN` in `types.rs`). -/
def NONCE_LEN : Nat := 12

/-- AEAD tag length, 128-bit (`TAG_LEN` in `types.rs`). -/
def TAG_LEN : Nat := 16

/-- Flag bit 0: payload was compressed before encryption (`FLAG_COMPRESSED`). -/
def FLAG_COMPRESSED : Nat := 1

/-- Error categories of `VaultError` (`error.rs`).  The `message`/`context`
string payloads of the Rust enum are elided: no claim depends on them, only on
the variant. -/
inductive VaultError
  | encryption
  | decryption
  | invalidPayload
  | decompression
  deriving DecidableEq, Repr

/-- Abstract AEAD cipher (the `VaultCipher` trait instantiated by AES-256-GCM
or ChaCha20-Poly1305; the primitives live outside the repository).
`encrypt nonce aad plaintext` returns `(ciphertext, tag)` (detached-tag API,
in-place encryption), `none` modelling an AEAD failure.
`decrypt nonce aad ciphertext tag` returns the plaintext or `none` on
authentication failure. -/
structure Cipher where
  encrypt : List Nat → List Nat → List Nat → Option (List Nat × List Nat)
  decrypt : List Nat → List Nat → List Nat → List Nat → Option (List Nat)

/-- Abstract LZ4 codec (`lz4_flex::compress_prepend_size` /
`decompress_size_prepended`, external crate). -/
structure Lz4 where
  compress : List Nat → List Nat
  decompress : List Nat → Option (List Nat)

/-- `Vault::encrypt_internal` (`engine.rs:274-307`).  The fresh CSPRNG nonce is
passed in as `nonce` (the Rust code aborts the process if the CSPRNG fails, so
nonce generation itself is total).  Builds
`[version|flags|nonce|ciphertext|tag]`. -/
def encrypt_internal (lz : Lz4) (c : Cipher) (nonce data aad : List Nat)
    (compress : Bool) : Except VaultError (List Nat) :=
  let data' := if compress then lz.compress data else data
  let flags := if compress then FLAG_COMPRESSED else 0
  match c.encrypt nonce aad data' with
  | none => .error .encryption
  | some (ct, tag) =>
      .ok ([PAYLOAD_VERSION_V1, flags] ++ nonce ++ ct ++ tag)

/-- `Vault::decrypt_internal` (`engine.rs:309-367`).  Checks the minimum
length, then the version byte, splits off nonce / ciphertext / tag, decrypts,
and decompresses iff flag bit 0 is set.  The `try_into` conversions of the
nonce and tag slices cannot fail once the length guard has passed, so they
introduce no extra error path here. -/
def decrypt_internal (lz : Lz4) (c : Cipher) (blob aad : List Nat) :
    Except VaultError (List Nat) :=
  if blob.length < HEADER_LEN + NONCE_LEN + TAG_LEN then
    .error .invalidPayload
  else
    let version := blob.headD 0
    let flags := (blob.drop 1).headD 0
    if version ≠ PAYLOAD_VERSION_V1 then
      .error .invalidPayload
    else
      let rest := blob.drop HEADER_LEN
      let nonce := rest.take NONCE_LEN
      let rest2 := rest.drop NONCE_LEN
      let ciphertext := rest2.take (rest2.length - TAG_LEN)
      let tag := rest2.drop (rest2.length - TAG_LEN)
      match c.decrypt nonce aad ciphertext tag with
      | none => .error .decryption
      | some buf =>
          if Nat.land flags FLAG_COMPRESSED ≠ 0 then
            match lz.decompress buf with
            | none => .error .decompression
            | some out => .ok out
          else .ok buf

/-- The two key domains (`Local` / `Fleet` markers in `types.rs`). -/
inductive Domain
  | local
  | fleet
  deriving DecidableEq, Repr

/-- Vault state: two independent ciphers and the compression default
(`VaultInner` in `engine.rs`). -/
structure VaultSt where
  local_cipher : Cipher
  fleet_cipher : Cipher
  compression : Bool

/-- `PayloadKind::select_cipher` (`types.rs`): the phantom domain parameter
picks the cipher. -/
def select_cipher (v : VaultSt) : Domain → Cipher
  | .local => v.local_cipher
  | .fleet => v.fleet_cipher

/-- `Vault::seal_bytes` (`engine.rs`): select the domain cipher and run
`encrypt_internal` with the vault's compression default. -/
def seal_bytes (v : VaultSt) (lz : Lz4) (d : Domain) (nonce data context : List Nat) :
    Except VaultError (List Nat) :=
  encrypt_internal lz (select_cipher v d) nonce data context v.compression

/-- `Vault::unseal_bytes` (`engine.rs`): select the domain cipher and run
`decrypt_internal`. -/
def unseal_bytes (v : VaultSt) (lz : Lz4) (d : Domain) (payload context : List Nat) :
    Except VaultError (List Nat) :=
  decrypt_internal lz (select_cipher v d) payload context

/-- `ProtectedPayload` (`types.rs`): an opaque byte container. -/
structure ProtectedPayload where
  data : List Nat
  deriving DecidableEq, Repr

/-- `From<Vec<u8>> for ProtectedPayload` (`types.rs:123-127`): total on any
byte vector. -/
def ProtectedPayload.fromVec (v : List Nat) : ProtectedPayload :=
  ⟨v⟩

/-- `ProtectedPayload::split` (`types.rs:98-107`).  The two Rust
`split_at` calls panic when the index exceeds the length; a panic is modelled
as `none`.  The final `split_at` uses `saturating_sub` and never panics. -/
def ProtectedPayload.split (p : ProtectedPayload) :
    Option (List Nat × List Nat × List Nat × List Nat) :=
  if HEADER_LEN ≤ p.data.length then
    let header := p.data.take HEADER_LEN
    let rest := p.data.drop HEADER_LEN
    if NONCE_LEN ≤ rest.length then
      let nonce := rest.take NONCE_LEN
      let rest2 := rest.drop NONCE_LEN
      some (header, nonce, rest2.take (rest2.length - TAG_LEN),
            rest2.drop (rest2.length - TAG_LEN))
    else none
  else none

end Vault

namespace Storage

/-- Error categories of `StorageError` (`error.rs`).  The `message` payload
(a rendering of the offending path) is elided; the literal `context` string is
kept where the source supplies one. -/
inductive StorageError
  | pathTraversalAttempt (context : Option String)
  | fileNotFound (context : Option String)
  | io (context : Option String)
  deriving DecidableEq, Repr

/-- One component of a Rust `std::path::Path`, as produced by
`Path::components()`: root (`/`), a Windows drive/verbatim prefix, `.`, `..`,
or a normal segment. -/
inductive Component
  | rootDir
  | drive (s : String)
  | curDir
  | parentDir
  | normal (s : String)
  deriving DecidableEq, Repr

/-- Recursion of `normalize_relative` (`security.rs:8-33`): walk the
components left to right; `.` drops, a normal segment pushes, `..` pops (error
when the accumulated path is empty), root / prefix components error. -/
def normalizeRelAux (out : List String) : List Component →
    Except StorageError (List String)
  | [] => .ok out
  | c :: rest =>
    match c with
    | .curDir => normalizeRelAux out rest
    | .normal s => normalizeRelAux (out ++ [s]) rest
    | .parentDir =>
        match out with
        | [] => .error (.pathTraversalAttempt
            (some "Path attempted to escape sandbox via .."))
        | _ => normalizeRelAux out.dropLast rest
    | .rootDir => .error (.pathTraversalAttempt
        (some "Absolute paths are not allowed in sandbox"))
    | .drive _ => .error (.pathTraversalAttempt
        (some "Absolute paths are not allowed in sandbox"))

/-- `normalize_relative` (`security.rs:8-33`). -/
def normalize_relative (p : List Component) : Except StorageError (List String) :=
  normalizeRelAux [] p

/-- `Path::is_absolute`: a path whose first component is the root or a drive
prefix.  (On Unix this is exactly `has_root`; a Windows drive-relative path
such as `C:foo` is not absolute in Rust, but its prefix component is rejected
by `normalize_relative` anyway, so the distinction cannot change the result of
`resolve_path`.) -/
def isAbsolute : List Component → Bool
  | .rootDir :: _ => true
  | .drive _ :: _ => true
  | _ => false

/-- `resolve_path` (`security.rs:36-54`).  The filesystem-dependent tail
(`canonicalize` plus containment validation, including the
nearest-existing-ancestor walk of `validate_path`) performs disk I/O and is
abstracted as the parameter `fsCheck`, applied to the joined path.  Both error
branches of the claim return before any I/O, so their behaviour is exact for
every `fsCheck`. -/
def resolve_path (fsCheck : List String → Except StorageError (List String))
    (root : List String) (p : List Component) :
    Except StorageError (List String) :=
  if isAbsolute p then
    .error (.pathTraversalAttempt none)
  else
    match normalize_relative p with
    | .error e => .error e
    | .ok safe_rel => fsCheck (root ++ safe_rel)

/-- `Path::file_name` on a component list: the last component when it is a
normal segment, `none` otherwise (paths ending in `..`, a bare root, or an
empty path have no file name). -/
def fileNameOf (p : List Component) : Option String :=
  match p.getLast? with
  | some (.normal s) => some s
  | _ => none

/-- The two shard directory components inserted by `resolve_sharding`
(`security.rs:80-86`): the first two and next two characters of the filename,
inserted exactly when the filename has at least 4 characters. -/
def shardDirs (filename : String) : List Component :=
  let chars := filename.toList
  if 4 ≤ chars.length then
    [Component.normal (String.mk (chars.take 2)),
     Component.normal (String.mk ((chars.drop 2).take 2))]
  else []

/-- The namespace push of `resolve_sharding` (`if let Some(n) = ns`): the
namespace (validated elsewhere to `[a-z0-9_]+`) is pushed as a single normal
component. -/
def nsComponents : Option String → List Component
  | some n => [Component.normal n]
  | none => []

/-- `resolve_sharding` (`security.rs:59-90`): extract parent and filename,
build `[namespace?]/[parent]/[shards]/filename`, delegate to `resolve_path`. -/
def resolve_sharding (fsCheck : List String → Except StorageError (List String))
    (root : List String) (ns : Option String) (p : List Component) :
    Except StorageError (List String) :=
  let parent := p.dropLast
  match fileNameOf p with
  | none => .error (.fileNotFound (some "Target must be a file"))
  | some filename =>
      resolve_path fsCheck root
        (nsComponents ns ++ parent ++ shardDirs filename
          ++ [Component.normal filename])

/-- A node of the on-disk tree scanned by `purge_tmp`: a file with a name and
an age in seconds since its mtime (`none` when the mtime cannot be read), or a
directory with children. -/
inductive FsTree
  | file (name : String) (age : Option Nat)
  | dir (name : String) (children : List FsTree)

/-- `is_tmp` (`maintenance.rs:52-61`): the file name contains `.mhubtmp.`. -/
def isTmpName (name : String) : Bool :=
  decide ((".mhubtmp.".toList) <:+: name.toList)

/-- `is_stale` (`maintenance.rs:63-69`): age strictly greater than the
threshold; an unreadable mtime (`map_or(true, ..)`) counts as stale. -/
def isStale (threshold : Nat) : Option Nat → Bool
  | none => true
  | some age => threshold < age

mutual

/-- One node of the `remove_stale` walk (`maintenance.rs:22-50`), contents
first: a file is removed (`none`) iff it is a tmp file and stale; a directory
is processed recursively and then `remove_dir` is attempted, which succeeds
exactly when the directory has become empty.  The second result is the
`removed` file count; `remove_file` is modelled as always succeeding, so the
`failed` count is constantly zero and omitted. -/
def purgeTree (threshold : Nat) : FsTree → Option FsTree × Nat
  | .file name age =>
      if isTmpName name && isStale threshold age then (none, 1)
      else (some (.file name age), 0)
  | .dir name children =>
      let r := purgeChildren threshold children
      if r.1.isEmpty then (none, r.2) else (some (.dir name r.1), r.2)

/-- The walk of `remove_stale` over a directory's children. -/
def purgeChildren (threshold : Nat) : List FsTree → List FsTree × Nat
  | [] => ([], 0)
  | t :: ts =>
      let r := purgeTree threshold t
      let rs := purgeChildren threshold ts
      match r.1 with
      | none => (rs.1, r.2 + rs.2)
      | some t' => (t' :: rs.1, r.2 + rs.2)

end

/-- `remove_stale` (`maintenance.rs:22-50`) applied at the root: the walk
skips the root itself (`filter(|e| e.path() != root)`), so only the root's
children are processed and the root directory is never removed. -/
def remove_stale (threshold : Nat) (rootChildren : List FsTree) :
    List FsTree × Nat :=
  purgeChildren threshold rootChildren

/-- `Storage::purge_tmp` (`engine.rs:396-398`) via `maintenance::purge_tmp`
(`maintenance.rs:6-20`): runs `remove_stale` with a 300-second threshold,
logs the counts, and returns `()` — the counts are not returned to the
caller.  The value component of the pair is the caller-visible result. -/
def purge_tmp (rootChildren : List FsTree) : Unit × List FsTree :=
  ((), (remove_stale 300 rootChildren).1)

mutual

/-- Number of file nodes in a tree (for counting what the purge removed). -/
def fileCount : FsTree → Nat
  | .file _ _ => 1
  | .dir _ children => fileCountList children

/-- Number of file nodes in a forest. -/
def fileCountList : List FsTree → Nat
  | [] => 0
  | t :: ts => fileCount t + fileCountList ts

end

/-- File count of an optional tree (0 for a removed node). -/
def fileCountO : Option FsTree → Nat
  | none => 0
  | some t => fileCount t

end Storage

namespace Bus

/-- `DEFAULT_CAPACITY` (`bus.rs:11`). -/
def DEFAULT_CAPACITY : Nat := 128

/-- `MIN_CAPACITY` (`bus.rs:12`). -/
def MIN_CAPACITY : Nat := 1

/-- Error categories of `EventBusError` (`error.rs`).  `message` keeps the
literal string where the source supplies one and is `none` where the source
builds the message with `format!` (type names, kind renderings); the
`context` payload is elided. -/
inductive EventBusError
  | channelKindMismatch (message : Option String)
  | channelNotFound (message : Option String)
  | channelFull (message : Option String)
  | invalidCapacity (message : Option String)
  | typeMismatch (message : Option String)
  deriving DecidableEq, Repr

/-- State of an MPSC (queue) channel slot (`MpscChannel` in `bus.rs:38-42`):
the bounded queue, whether the receiver is still stored (`receiver.is_some()`)
and whether it was ever taken. -/
structure MpscSt where
  capacity : Nat
  queue : List Nat
  receiverPresent : Bool
  taken : Bool
  deriving DecidableEq, Repr

/-- A per-type channel slot (`ChannelState` in `bus.rs:32-36`, with the
`Box<dyn Any>` sender resolved to its actual contents).  Event values are
modelled as `Nat`.  For broadcast we track the number of live receivers,
which is what `broadcast::Sender::send` reports. -/
inductive ChannelSt
  | broadcast (capacity : Nat) (receivers : Nat)
  | mpsc (st : MpscSt)
  | watch (current : Nat)
  deriving DecidableEq, Repr

/-- The channel registry: the `TypeId`-keyed map, with type identifiers
modelled as `Nat` keys. -/
abbrev BusSt := List (Nat × ChannelSt)

/-- Registry lookup (`channels.get(&id)`). -/
def busGet (bus : BusSt) (id : Nat) : Option ChannelSt :=
  match bus with
  | [] => none
  | e :: rest => if e.1 = id then some e.2 else busGet rest id

/-- Registry insert/overwrite (`channels.insert` / `entry(id).or_insert_with`
plus in-place mutation through `get_mut`). -/
def busSet (bus : BusSt) (id : Nat) (st : ChannelSt) : BusSt :=
  match bus with
  | [] => [(id, st)]
  | e :: rest => if e.1 = id then (id, st) :: rest else e :: busSet rest id st

/-- The channel kinds `ensure_channel` can be asked for.  In the source its
`kind` argument has type `ChannelKind`, but every caller passes `Broadcast`
or `Watch` and the `(Mpsc, Mpsc)` pairing is `unreachable!` (`bus.rs:74`);
MPSC slots are managed by `get_or_create_mpsc` / `take_mpsc_receiver`. -/
inductive EnsureKind
  | broadcast (capacity : Nat)
  | watch
  deriving DecidableEq, Repr

/-- `EventBus::ensure_channel` (`bus.rs:410-516`).  Returns the handle
(modelled as the channel slot the handle points at) and the updated registry.
A capacity mismatch with an existing same-kind channel only logs a warning;
the existing capacity wins. -/
def ensure_channel (bus : BusSt) (id : Nat) (kind : EnsureKind)
    (watchInitial : Option Nat) : Except EventBusError ChannelSt × BusSt :=
  match kind, watchInitial with
  | .watch, none =>
      (.error (.typeMismatch (some "Watch channel requires an initial value")), bus)
  | .watch, some v =>
      match busGet bus id with
      | some existing =>
          match existing with
          | .watch w => (.ok (.watch w), bus)
          | _ => (.error (.channelKindMismatch none), bus)
      | none => (.ok (.watch v), busSet bus id (.watch v))
  | .broadcast cap, _ =>
      match busGet bus id with
      | some existing =>
          match existing with
          | .broadcast ecap recv => (.ok (.broadcast ecap recv), bus)
          | _ => (.error (.channelKindMismatch none), bus)
      | none => (.ok (.broadcast cap 0), busSet bus id (.broadcast cap 0))

/-- `validate_capacity` (`bus.rs` bottom): capacities below `MIN_CAPACITY`
are rejected. -/
def validate_capacity (c : Nat) : Except EventBusError Nat :=
  if c < MIN_CAPACITY then
    .error (.invalidCapacity (some "capacity must be >= 1"))
  else .ok c

/-- `EventBus::subscribe_with_capacity` (`bus.rs`): ensure a broadcast
channel, then `tx.subscribe()` adds one receiver. -/
def subscribe_with_capacity (bus : BusSt) (id capacity : Nat) :
    Except EventBusError Unit × BusSt :=
  match validate_capacity capacity with
  | .error e => (.error e, bus)
  | .ok c =>
      match ensure_channel bus id (.broadcast c) none with
      | (.error e, bus') => (.error e, bus')
      | (.ok st, bus') =>
          match st with
          | .broadcast cap recv => (.ok (), busSet bus' id (.broadcast cap (recv + 1)))
          | _ => (.error (.typeMismatch none), bus')

/-- `EventBus::subscribe` (`bus.rs`): broadcast subscription at the default
capacity. -/
def subscribe (bus : BusSt) (id : Nat) : Except EventBusError Unit × BusSt :=
  subscribe_with_capacity bus id DEFAULT_CAPACITY

/-- `EventBus::publish_arc` (`bus.rs:258-281`): ensure a broadcast channel at
default capacity, then `send`.  `broadcast::Sender::send` returns the number
of live receivers and errors when there are none, which `publish_arc` maps to
`Ok(0)` — so the success value is always the receiver count.  The published
value does not change the registry (receiver ring buffers are not part of the
registry state). -/
def publish_arc (bus : BusSt) (id : Nat) : Except EventBusError Nat × BusSt :=
  match ensure_channel bus id (.broadcast DEFAULT_CAPACITY) none with
  | (.error e, bus') => (.error e, bus')
  | (.ok st, bus') =>
      match st with
      | .broadcast _ recv => (.ok recv, bus')
      | _ => (.error (.typeMismatch none), bus')

/-- `EventBus::get_or_create_mpsc` (`bus.rs`): returns a sender for the MPSC
slot, creating the slot (receiver stored, not yet taken) when absent. -/
def get_or_create_mpsc (bus : BusSt) (id capacity : Nat) :
    Except EventBusError MpscSt × BusSt :=
  match validate_capacity capacity with
  | .error e => (.error e, bus)
  | .ok c =>
      match busGet bus id with
      | some (.mpsc m) => (.ok m, bus)
      | some _ => (.error (.channelKindMismatch none), bus)
      | none =>
          let m : MpscSt :=
            { capacity := c, queue := [], receiverPresent := true, taken := false }
          (.ok m, busSet bus id (.mpsc m))

/-- `EventBus::publish_mpsc_arc` (`bus.rs`): non-blocking `try_send`; a full
queue yields `ChannelFull`.  (The `try_send` closed-channel error cannot occur
in this model, which has no receiver-drop operation.) -/
def publish_mpsc_arc (bus : BusSt) (id : Nat) (event : Nat) :
    Except EventBusError Unit × BusSt :=
  match get_or_create_mpsc bus id DEFAULT_CAPACITY with
  | (.error e, bus') => (.error e, bus')
  | (.ok m, bus') =>
      if m.queue.length < m.capacity then
        (.ok (), busSet bus' id (.mpsc { m with queue := m.queue ++ [event] }))
      else (.error (.channelFull none), bus')

/-- `EventBus::take_mpsc_receiver` (`bus.rs:583-659`).  If the slot exists
with MPSC kind: a second take fails with `ChannelKindMismatch` and the literal
message "MPSC receiver already taken"; otherwise `taken` is set and the stored
receiver is removed (its absence would yield `ChannelNotFound`).  A slot of a
different kind yields `ChannelKindMismatch`.  An absent slot is created with
the receiver handed out immediately (`receiver: None, taken: true`). -/
def take_mpsc_receiver (bus : BusSt) (id capacity : Nat) :
    Except EventBusError Unit × BusSt :=
  match validate_capacity capacity with
  | .error e => (.error e, bus)
  | .ok c =>
      match busGet bus id with
      | some (.mpsc m) =>
          if m.taken then
            (.error (.channelKindMismatch (some "MPSC receiver already taken")), bus)
          else
            let m' := { m with taken := true, receiverPresent := false }
            if m.receiverPresent then (.ok (), busSet bus id (.mpsc m'))
            else
              (.error (.channelNotFound (some "MPSC receiver missing")),
               busSet bus id (.mpsc m'))
      | some _ => (.error (.channelKindMismatch none), bus)
      | none =>
          let m : MpscSt :=
            { capacity := c, queue := [], receiverPresent := false, taken := true }
          (.ok (), busSet bus id (.mpsc m))

/-- `EventBus::subscribe_mpsc` (`bus.rs`): validate the capacity and take the
(unique) receiver. -/
def subscribe_mpsc (bus : BusSt) (id capacity : Nat) :
    Except EventBusError Unit × BusSt :=
  match validate_capacity capacity with
  | .error e => (.error e, bus)
  | .ok c => take_mpsc_receiver bus id c

/-- `EventBus::subscribe_watch` (`bus.rs`): ensure a watch channel with the
supplied initial value and subscribe. -/
def subscribe_watch (bus : BusSt) (id : Nat) (initial : Nat) :
    Except EventBusError Unit × BusSt :=
  match ensure_channel bus id .watch (some initial) with
  | (.error e, bus') => (.error e, bus')
  | (.ok st, bus') =>
      match st with
      | .watch _ => (.ok (), bus')
      | _ => (.error (.typeMismatch none), bus')

/-- `EventBus::publish_watch_arc` (`bus.rs`): ensure a watch channel and
`send_replace` the value. -/
def publish_watch_arc (bus : BusSt) (id : Nat) (event : Nat) :
    Except EventBusError Unit × BusSt :=
  match ensure_channel bus id .watch (some event) with
  | (.error e, bus') => (.error e, bus')
  | (.ok st, bus') =>
      match st with
      | .watch _ => (.ok (), busSet bus' id (.watch event))
      | _ => (.error (.typeMismatch none), bus')

/-- `EventBus::shutdown` (`bus.rs:400-408`): clear the registry, returning
how many channels were dropped. -/
def shutdown (bus : BusSt) : Nat × BusSt :=
  (bus.length, [])

/-- The three channel kinds, forgetting capacities — what
`ChannelKindMismatch` discriminates on. -/
inductive KindC
  | broadcastC
  | mpscC
  | watchC
  deriving DecidableEq, Repr

/-- The kind of a channel slot. -/
def kindC : ChannelSt → KindC
  | .broadcast _ _ => .broadcastC
  | .mpsc _ => .mpscC
  | .watch _ => .watchC

end Bus

namespace License

/-- Error categories of `LicenseError` (`error.rs`); message/context payloads
elided, no claim depends on them. -/
inductive LicenseError
  | expired
  | invalidSignature
  | hardwareMismatch
  | machineIDGeneration
  | internal
  deriving DecidableEq, Repr

/-- Rust `str::split` with a one-character separator, over character lists:
`"a|b" ↦ ["a","b"]`, `"" ↦ [""]`, `"a|" ↦ ["a",""]`. -/
def splitSepChars (sep : Char) : List Char → List (List Char)
  | [] => [[]]
  | c :: rest =>
      let r := splitSepChars sep rest
      if c = sep then [] :: r
      else
        match r with
        | [] => [[c]]
        | h :: t => (c :: h) :: t

/-- `parse_machine_id_compound` (`constraints.rs`): strip the `v1:` prefix,
split the remainder on `|`, and require exactly three non-empty parts. -/
def parse_machine_id_compound (s : List Char) :
    Except LicenseError (List (List Char)) :=
  if s.take 3 = ['v', '1', ':'] then
    let parts := splitSepChars '|' (s.drop 3)
    if parts.length = 3 ∧ ∀ p ∈ parts, p ≠ [] then .ok parts
    else .error .machineIDGeneration
  else .error .machineIDGeneration

/-- `MachineConstraint` (license data model): `Any`, or a threshold over a
list of allowed compound ids. -/
inductive MachineConstraint
  | any
  | threshold (ids : List (List Char)) (min_matches : Nat)

/-- `allowed_set.intersection(&current_set).count()` in `validate_hardware`:
the number of distinct components present in both lists. -/
def interCount (allowed current : List (List Char)) : Nat :=
  (allowed.dedup.filter (fun s => current.contains s)).length

/-- The per-id score of `validate_hardware`: the intersection count, pushed
through `u16::try_from(..).unwrap_or(u16::MIN)` (only reachable as the
identity, since at most three components exist, but modelled as written). -/
def matchScore (current allowed : List (List Char)) : Nat :=
  let mcount := interCount allowed current
  if mcount ≤ 65535 then mcount else 0

/-- The `for allowed_compound in ids` loop of `validate_hardware`
(`validator.rs:78-113`) with its running `best` accumulator: parse each
allowed id, update `best`, and return `Ok` as soon as `best >= min_matches`;
when the list is exhausted, fail with `HardwareMismatch`. -/
def hwLoop (current : List (List Char)) (min_matches : Nat) :
    List (List Char) → Nat → Except LicenseError Unit
  | [], _ => .error .hardwareMismatch
  | id :: rest, best =>
      match parse_machine_id_compound id with
      | .error e => .error e
      | .ok allowed =>
          let best' := max best (matchScore current allowed)
          if min_matches ≤ best' then .ok ()
          else hwLoop current min_matches rest best'

/-- `validate_hardware` (`validator.rs:78-113`).  The hardware-dependent
`generate_machine_id_compound()` (it reads CPU/MAC/system identifiers) is
passed in as `gen`. -/
def validate_hardware (gen : Except LicenseError (List Char)) :
    MachineConstraint → Except LicenseError Unit
  | .any => .ok ()
  | .threshold ids min_matches =>
      match gen with
      | .error e => .error e
      | .ok cc =>
          match parse_machine_id_compound cc with
          | .error e => .error e
          | .ok current => hwLoop current min_matches ids 0

end License

namespace Examples

/-- A concrete instance of the abstract AEAD interface used to evaluate the
framing code on closed inputs: the ciphertext is the plaintext and the tag is
a fixed 16-byte value, which `decrypt` checks.  It satisfies the AEAD
roundtrip laws the framing relies on. -/
def idCipher : Vault.Cipher where
  encrypt := fun _ _ p => some (p, List.replicate 16 0)
  decrypt := fun _ _ ct tag => if tag = List.replicate 16 0 then some ct else none

/-- A trivial instance of the LZ4 interface (identity codec). -/
def idLz : Vault.Lz4 where
  compress := fun x => x
  decompress := fun x => some x

/-- A vault over `idCipher` with compression off. -/
def idVault : Vault.VaultSt where
  local_cipher := idCipher
  fleet_cipher := idCipher
  compression := false

/-- A concrete 12-byte nonce. -/
def nonce12 : List Nat := List.replicate 12 0

/-- A 30-byte payload whose flags byte is `2`: version 1, reserved bit 1 set,
empty ciphertext, valid tag for `idCipher`. -/
def flaggedBlob : List Nat := [1, 2] ++ List.replicate 12 0 ++ List.replicate 16 0

end Examples

namespace Vault

lemma encrypt_internal_ok (lz : Lz4) (c : Cipher) (nonce data aad : List Nat)
    (compress : Bool) (blob : List Nat)
    (h : encrypt_internal lz c nonce data aad compress = .ok blob) :
    ∃ ct tag,
      c.encrypt nonce aad (if compress then lz.compress data else data) = some (ct, tag) ∧
      blob = [PAYLOAD_VERSION_V1, if compress then FLAG_COMPRESSED else 0]
        ++ nonce ++ ct ++ tag := by
  simp only [encrypt_internal] at h
  cases henc : c.encrypt nonce aad (if compress then lz.compress data else data) with
  | none => rw [henc] at h; exact absurd h (by simp)
  | some pr =>
      obtain ⟨ct, tag⟩ := pr
      rw [henc] at h
      simp only [Except.ok.injEq] at h
      exact ⟨ct, tag, rfl, h.symm⟩

lemma decrypt_internal_encrypt_internal (lz : Lz4) (c : Cipher)
    (nonce data aad blob : List Nat) (compress : Bool)
    (hnonce : nonce.length = NONCE_LEN)
    (htag : ∀ n a p ct tag, c.encrypt n a p = some (ct, tag) → tag.length = TAG_LEN)
    (hdec : ∀ n a p ct tag, c.encrypt n a p = some (ct, tag) →
      c.decrypt n a ct tag = some p)
    (hlz : ∀ x, lz.decompress (lz.compress x) = some x)
    (h : encrypt_internal lz c nonce data aad compress = .ok blob) :
    decrypt_internal lz c blob aad = .ok data := by
  obtain ⟨ct, tag, henc, hblob⟩ := encrypt_internal_ok lz c nonce data aad compress blob h
  have htag' := htag _ _ _ _ _ henc
  have hdec' := hdec _ _ _ _ _ henc
  subst hblob
  have hn12 : nonce.length = 12 := hnonce
  have ht16 : tag.length = 16 := htag'
  have hL : [PAYLOAD_VERSION_V1, if compress then FLAG_COMPRESSED else 0]
      ++ nonce ++ ct ++ tag
      = PAYLOAD_VERSION_V1 :: (if compress then FLAG_COMPRESSED else 0)
        :: (nonce ++ (ct ++ tag)) := by
    simp
  rw [hL]
  have hlen : ¬ ((PAYLOAD_VERSION_V1 :: (if compress then FLAG_COMPRESSED else 0)
      :: (nonce ++ (ct ++ tag))).length < 2 + NONCE_LEN + TAG_LEN) := by
    have hlen' : (PAYLOAD_VERSION_V1 :: (if compress then FLAG_COMPRESSED else 0)
        :: (nonce ++ (ct ++ tag))).length = 30 + ct.length := by
      simp only [List.length_cons, List.length_append, hn12, ht16]
      omega
    rw [hlen']
    show ¬ (30 + ct.length < 30)
    omega
  simp only [decrypt_internal, HEADER_LEN]
  rw [if_neg hlen]
  simp only [List.headD_cons, List.drop_succ_cons, List.drop_zero]
  rw [if_neg (by simp)]
  rw [List.take_left' hnonce, List.drop_left' hnonce]
  have hctlen : (ct ++ tag).length - TAG_LEN = ct.length := by
    simp only [List.length_append, ht16]
    show ct.length + 16 - 16 = ct.length
    omega
  rw [hctlen, List.take_left, List.drop_left, hdec']
  cases compress with
  | false =>
      have hland : Nat.land 0 FLAG_COMPRESSED = 0 := by decide
      simp [hland]
  | true =>
      have hland : Nat.land FLAG_COMPRESSED FLAG_COMPRESSED ≠ 0 := by decide
      simp [hland, hlz]

/-- C1: for every plaintext, associated data and domain, on any vault (fixed
derived keys, either compression setting), `unseal_bytes` with the same
domain and associated data inverts `seal_bytes`, given the AEAD laws of the
underlying cipher (tag length 16, decrypt inverts encrypt) and the LZ4
roundtrip law. -/
theorem c1_seal_unseal_roundtrip (v : VaultSt) (lz : Lz4) (d : Domain)
    (nonce data context blob : List Nat)
    (hnonce : nonce.length = NONCE_LEN)
    (htag : ∀ n a p ct tag,
      (select_cipher v d).encrypt n a p = some (ct, tag) → tag.length = TAG_LEN)
    (hdec : ∀ n a p ct tag,
      (select_cipher v d).encrypt n a p = some (ct, tag) →
        (select_cipher v d).decrypt n a ct tag = some p)
    (hlz : ∀ x, lz.decompress (lz.compress x) = some x)
    (hseal : seal_bytes v lz d nonce data context = .ok blob) :
    unseal_bytes v lz d blob context = .ok data :=
  decrypt_internal_encrypt_internal lz (select_cipher v d) nonce data context blob
    v.compression hnonce htag hdec hlz hseal

/-- Witness for C1: a concrete roundtrip through the framing over the
concrete cipher instance. -/
theorem c1_seal_unseal_roundtrip_witness :
    unseal_bytes Examples.idVault Examples.idLz .local
      ([1, 0] ++ Examples.nonce12 ++ [5, 6, 7] ++ List.replicate 16 0) [9]
      = .ok [5, 6, 7] :=
  c1_seal_unseal_roundtrip Examples.idVault Examples.idLz .local
    Examples.nonce12 [5, 6, 7] [9]
    ([1, 0] ++ Examples.nonce12 ++ [5, 6, 7] ++ List.replicate 16 0)
    (by decide)
    (by intro n a p ct tag h
        simp only [select_cipher, Examples.idVault, Examples.idCipher] at h
        rw [Option.some.injEq, Prod.mk.injEq] at h
        obtain ⟨h1, h2⟩ := h
        subst h1
        subst h2
        simp [TAG_LEN])
    (by intro n a p ct tag h
        simp only [select_cipher, Examples.idVault, Examples.idCipher] at h
        rw [Option.some.injEq, Prod.mk.injEq] at h
        obtain ⟨h1, h2⟩ := h
        subst h1
        subst h2
        simp [select_cipher, Examples.idVault, Examples.idCipher])
    (by intro x; rfl)
    rfl

/-- C2 (amended): `decrypt_internal` does not validate reserved flag bits.
It returns `InvalidPayload` exactly for payloads shorter than 30 bytes or
with a version byte other than 1; the flags byte is otherwise only consulted
for its bit 0 (compression), so a set reserved bit never yields
`InvalidPayload` — for any cipher and any LZ4 codec. -/
theorem c2_reserved_flags_ignored (lz : Lz4) (c : Cipher) (blob aad : List Nat) :
    decrypt_internal lz c blob aad = .error .invalidPayload ↔
      blob.length < 30 ∨ blob.headD 0 ≠ PAYLOAD_VERSION_V1 := by
  simp only [decrypt_internal]
  by_cases h1 : blob.length < HEADER_LEN + NONCE_LEN + TAG_LEN
  · rw [if_pos h1]
    constructor
    · intro _
      exact Or.inl h1
    · intro _
      rfl
  · rw [if_neg h1]
    by_cases h2 : blob.headD 0 ≠ PAYLOAD_VERSION_V1
    · rw [if_pos h2]
      constructor
      · intro _
        exact Or.inr h2
      · intro _
        rfl
    · rw [if_neg h2]
      apply iff_of_false
      · intro hcontra
        split at hcontra
        · exact absurd hcontra (by decide)
        · split at hcontra
          · split at hcontra
            · exact absurd hcontra (by decide)
            · exact absurd hcontra (by simp)
          · exact absurd hcontra (by simp)
      · intro hor
        cases hor with
        | inl hlt => exact h1 hlt
        | inr hne => exact h2 hne

/-- Counterexample to C2 as stated: a 30-byte version-1 payload whose flags
byte is `2` (reserved bit 1 set, compressed bit clear) is not rejected with
`InvalidPayload`; with a cipher that authenticates the blob it decrypts to
`Ok`. -/
theorem c2_counterexample :
    Vault.decrypt_internal Examples.idLz Examples.idCipher Examples.flaggedBlob []
        = .ok []
      ∧ (Examples.flaggedBlob.drop 1).headD 0 = 2
      ∧ Examples.flaggedBlob.length = 30
      ∧ Examples.flaggedBlob.headD 0 = PAYLOAD_VERSION_V1 := by
  refine ⟨by decide, by decide, by decide, by decide⟩

lemma split_eval (v : List Nat) (hA : HEADER_LEN ≤ v.length)
    (hB : NONCE_LEN ≤ (v.drop HEADER_LEN).length) :
    ProtectedPayload.split ⟨v⟩ =
      some (v.take HEADER_LEN, (v.drop HEADER_LEN).take NONCE_LEN,
        ((v.drop HEADER_LEN).drop NONCE_LEN).take
          (((v.drop HEADER_LEN).drop NONCE_LEN).length - TAG_LEN),
        ((v.drop HEADER_LEN).drop NONCE_LEN).drop
          (((v.drop HEADER_LEN).drop NONCE_LEN).length - TAG_LEN)) := by
  simp only [ProtectedPayload.split]
  rw [if_pos hA, if_pos hB]

/-- C9: `ProtectedPayload` is constructible from an arbitrary byte vector
(`From<Vec<u8>>` is total and keeps the bytes); `split` is total exactly on
payloads of at least 14 bytes (2-byte header plus 12-byte nonce) — on any
shorter payload the Rust code panics (modelled as `none`) — and on payloads
of 14 to 29 bytes it succeeds with a tag slice shorter than 16 bytes rather
than reporting an error. -/
theorem c9_payload_split_totality (v : List Nat) :
    (ProtectedPayload.fromVec v).data = v ∧
    ((ProtectedPayload.fromVec v).split = none ↔ v.length < 14) ∧
    (14 ≤ v.length →
      ∃ hdr nonce ct tag,
        (ProtectedPayload.fromVec v).split = some (hdr, nonce, ct, tag) ∧
        tag.length = min (v.length - 14) 16 ∧
        (v.length ≤ 29 → tag.length = v.length - 14 ∧ tag.length < 16)) := by
  have hdlen : (v.drop HEADER_LEN).length = v.length - 2 := by
    rw [List.length_drop]
    rfl
  refine ⟨rfl, ?_, ?_⟩
  · by_cases hA : HEADER_LEN ≤ v.length
    · by_cases hB : NONCE_LEN ≤ (v.drop HEADER_LEN).length
      · rw [show ProtectedPayload.fromVec v = ⟨v⟩ from rfl, split_eval v hA hB]
        simp only [reduceCtorEq, false_iff, not_lt]
        rw [hdlen] at hB
        have hA' : (2 : Nat) ≤ v.length := hA
        have hB' : (12 : Nat) ≤ v.length - 2 := hB
        omega
      · have hnone : (ProtectedPayload.fromVec v).split = none := by
          simp only [ProtectedPayload.fromVec, ProtectedPayload.split]
          rw [if_pos hA, if_neg hB]
        rw [hnone]
        simp only [true_iff]
        rw [hdlen] at hB
        have hA' : (2 : Nat) ≤ v.length := hA
        have hB' : ¬ ((12 : Nat) ≤ v.length - 2) := hB
        omega
    · have hnone : (ProtectedPayload.fromVec v).split = none := by
        simp only [ProtectedPayload.fromVec, ProtectedPayload.split]
        rw [if_neg hA]
      rw [hnone]
      simp only [true_iff]
      have hA' : ¬ ((2 : Nat) ≤ v.length) := hA
      omega
  · intro h14
    have hA : HEADER_LEN ≤ v.length := by
      show 2 ≤ v.length
      omega
    have hB : NONCE_LEN ≤ (v.drop HEADER_LEN).length := by
      rw [hdlen]
      show 12 ≤ v.length - 2
      omega
    have h2len : ((v.drop HEADER_LEN).drop NONCE_LEN).length = v.length - 14 := by
      rw [List.length_drop, hdlen]
      show v.length - 2 - 12 = v.length - 14
      omega
    refine ⟨v.take HEADER_LEN, (v.drop HEADER_LEN).take NONCE_LEN,
      ((v.drop HEADER_LEN).drop NONCE_LEN).take
        (((v.drop HEADER_LEN).drop NONCE_LEN).length - TAG_LEN),
      ((v.drop HEADER_LEN).drop NONCE_LEN).drop
        (((v.drop HEADER_LEN).drop NONCE_LEN).length - TAG_LEN),
      split_eval v hA hB, ?_, ?_⟩
    · rw [List.length_drop, h2len]
      show v.length - 14 - (v.length - 14 - 16) = min (v.length - 14) 16
      omega
    · intro h29
      rw [List.length_drop, h2len]
      show v.length - 14 - (v.length - 14 - 16) = v.length - 14 ∧
        v.length - 14 - (v.length - 14 - 16) < 16
      omega

end Vault

namespace Storage

lemma normalizeRelAux_error (p : List Component) :
    ∀ (out : List String) (e : StorageError), normalizeRelAux out p = .error e →
      ∃ ctx, e = .pathTraversalAttempt ctx := by
  induction p with
  | nil =>
      intro out e h
      exact absurd h (by simp [normalizeRelAux])
  | cons c rest ih =>
      intro out e h
      cases c with
      | curDir =>
          simp only [normalizeRelAux] at h
          exact ih out e h
      | normal s =>
          simp only [normalizeRelAux] at h
          exact ih (out ++ [s]) e h
      | parentDir =>
          simp only [normalizeRelAux] at h
          cases out with
          | nil =>
              simp only [Except.error.injEq] at h
              exact ⟨_, h.symm⟩
          | cons a as =>
              exact ih (a :: as).dropLast e h
      | rootDir =>
          simp only [normalizeRelAux, Except.error.injEq] at h
          exact ⟨_, h.symm⟩
      | drive s =>
          simp only [normalizeRelAux, Except.error.injEq] at h
          exact ⟨_, h.symm⟩

lemma normalizeRelAux_normals (segs : List String) :
    ∀ out : List String,
      normalizeRelAux out (segs.map Component.normal) = .ok (out ++ segs) := by
  induction segs with
  | nil => intro out; simp [normalizeRelAux]
  | cons s rest ih =>
      intro out
      simp only [List.map_cons, normalizeRelAux]
      rw [ih (out ++ [s])]
      simp

lemma normalize_relative_normals (segs : List String) :
    normalize_relative (segs.map Component.normal) = .ok segs := by
  have h := normalizeRelAux_normals segs []
  simpa [normalize_relative] using h

lemma isAbsolute_map_normal (segs : List String) :
    isAbsolute (segs.map Component.normal) = false := by
  cases segs <;> rfl

lemma resolve_path_normals (fs : List String → Except StorageError (List String))
    (root segs : List String) :
    resolve_path fs root (segs.map Component.normal) = fs (root ++ segs) := by
  simp only [resolve_path]
  rw [if_neg (by simp [isAbsolute_map_normal]), normalize_relative_normals]

/-- C3: `resolve_path` returns `PathTraversalAttempt` for every absolute
logical path and for every relative path whose lexical normalization fails
(a `..` popping above the empty base, or a root / drive-prefix component) —
for any root and any filesystem behaviour, since these rejections happen
before any I/O; in particular on `../etc/passwd`, `foo/../../bar` and
`/abs`. -/
theorem c3_resolve_rejects_traversal
    (fs : List String → Except StorageError (List String)) (root : List String) :
    (∀ p : List Component,
      (isAbsolute p = true ∨ ∃ e, normalize_relative p = .error e) →
      ∃ ctx, resolve_path fs root p = .error (.pathTraversalAttempt ctx)) ∧
    resolve_path fs root
        [Component.parentDir, Component.normal "etc", Component.normal "passwd"]
      = .error (.pathTraversalAttempt
          (some "Path attempted to escape sandbox via ..")) ∧
    resolve_path fs root
        [Component.normal "foo", Component.parentDir, Component.parentDir,
         Component.normal "bar"]
      = .error (.pathTraversalAttempt
          (some "Path attempted to escape sandbox via ..")) ∧
    resolve_path fs root [Component.rootDir, Component.normal "abs"]
      = .error (.pathTraversalAttempt none) := by
  refine ⟨?_, rfl, rfl, rfl⟩
  intro p hp
  by_cases habs : isAbsolute p = true
  · exact ⟨none, by simp [resolve_path, habs]⟩
  · rcases hp with habs' | ⟨e, he⟩
    · exact absurd habs' habs
    · obtain ⟨ctx, hctx⟩ := normalizeRelAux_error p [] e he
      refine ⟨ctx, ?_⟩
      simp only [resolve_path]
      rw [if_neg habs, he, hctx]

/-- C4: for every logical path with a non-empty (normal-component) filename,
`resolve_sharding` maps it to
`root / [namespace] / [subdirs] / s1 / s2 / filename`, where `s1`/`s2` are
the first two and next two filename characters, inserted exactly when the
filename has at least 4 characters — plus the spec's concrete instances
(`photo.png` under namespace `user_001` shards to `.../user_001/ph/ot/photo.png`,
a 3-character name is stored unsharded). -/
theorem c4_sharded_resolution
    (fs : List String → Except StorageError (List String)) (root : List String)
    (ns : Option String) :
    (∀ (subdirs : List String) (fn : String),
      resolve_sharding fs root ns ((subdirs ++ [fn]).map Component.normal)
        = fs (root ++ ns.toList ++ subdirs ++
            (if 4 ≤ fn.toList.length then
               [String.mk (fn.toList.take 2), String.mk ((fn.toList.drop 2).take 2)]
             else []) ++ [fn])) ∧
    resolve_sharding (fun l => .ok l) ["root"] (some "user_001")
        [Component.normal "photo.png"]
      = .ok ["root", "user_001", "ph", "ot", "photo.png"] ∧
    resolve_sharding (fun l => .ok l) ["root"] (some "user_001")
        [Component.normal "abc"]
      = .ok ["root", "user_001", "abc"] := by
  refine ⟨?_, rfl, rfl⟩
  intro subdirs fn
  have hfname : fileNameOf ((subdirs ++ [fn]).map Component.normal) = some fn := by
    simp only [fileNameOf, List.map_append, List.map_cons, List.map_nil,
      List.getLast?_concat]
  have hparent : ((subdirs ++ [fn]).map Component.normal).dropLast
      = subdirs.map Component.normal := by
    simp only [List.map_append, List.map_cons, List.map_nil]
    simp
  simp only [resolve_sharding]
  rw [hfname, hparent]
  change resolve_path fs root (nsComponents ns ++ List.map Component.normal subdirs
    ++ shardDirs fn ++ [Component.normal fn]) = _
  have hcomps :
      nsComponents ns ++ subdirs.map Component.normal ++ shardDirs fn
          ++ [Component.normal fn]
      = (ns.toList ++ subdirs ++
          (if 4 ≤ fn.toList.length then
             [String.mk (fn.toList.take 2), String.mk ((fn.toList.drop 2).take 2)]
           else []) ++ [fn]).map Component.normal := by
    cases ns with
    | none =>
        by_cases h4 : 4 ≤ fn.toList.length
        · have h4' : 4 ≤ fn.length := h4
          simp [nsComponents, shardDirs, h4, h4']
        · have h4' : ¬ 4 ≤ fn.length := h4
          simp [nsComponents, shardDirs, h4, h4']
    | some n =>
        by_cases h4 : 4 ≤ fn.toList.length
        · have h4' : 4 ≤ fn.length := h4
          simp [nsComponents, shardDirs, h4, h4']
        · have h4' : ¬ 4 ≤ fn.length := h4
          simp [nsComponents, shardDirs, h4, h4']
  rw [hcomps, resolve_path_normals]
  simp [List.append_assoc]

mutual

theorem purgeTree_count (th : Nat) : ∀ t : FsTree,
    fileCountO (purgeTree th t).1 + (purgeTree th t).2 = fileCount t
  | .file name age => by
      by_cases hb : (isTmpName name && isStale th age) = true
      · simp [purgeTree, hb, fileCountO, fileCount]
      · simp [purgeTree, hb, fileCountO, fileCount]
  | .dir name children => by
      have hc := purgeChildren_count th children
      by_cases he : (purgeChildren th children).1.isEmpty = true
      · have hnil : (purgeChildren th children).1 = [] := by
          simpa [List.isEmpty_iff] using he
        simp only [purgeTree, he, if_true, fileCountO, fileCount]
        rw [← hc, hnil]
        simp [fileCountList]
      · simp only [purgeTree, he, if_false, fileCountO, fileCount]
        exact hc

theorem purgeChildren_count (th : Nat) : ∀ l : List FsTree,
    fileCountList (purgeChildren th l).1 + (purgeChildren th l).2 = fileCountList l
  | [] => by simp [purgeChildren, fileCountList]
  | t :: ts => by
      have h1 := purgeTree_count th t
      have h2 := purgeChildren_count th ts
      simp only [purgeChildren]
      cases hr : (purgeTree th t).1 with
      | none =>
          rw [hr] at h1
          simp only [fileCountO] at h1
          simp only [fileCountList]
          omega
      | some t' =>
          rw [hr] at h1
          simp only [fileCountO] at h1
          simp only [fileCountList]
          omega

end

/-- C8 (amended): the purge walk removes a file exactly when its name
contains `.mhubtmp.` and it is stale (mtime strictly older than the
threshold, or unreadable); a directory is removed exactly when it has become
empty (the root is never considered); the internal removed count equals the
number of file nodes that disappeared; the concrete startup scenario removes
a 301-second-old `foo.mhubtmp.42` and keeps a 300-second-old one; and the
public `purge_tmp` returns `()` — the counts are logged, not returned. -/
theorem c8_purge_tmp_semantics (th : Nat) (name : String) (age : Option Nat)
    (children l : List FsTree) :
    ((purgeTree th (.file name age)).1 = none ↔
      (isTmpName name = true ∧ isStale th age = true)) ∧
    ((purgeTree th (.dir name children)).1 = none ↔
      (purgeChildren th children).1 = []) ∧
    (fileCountList (remove_stale th l).1 + (remove_stale th l).2
      = fileCountList l) ∧
    purge_tmp l = ((), (remove_stale 300 l).1) ∧
    remove_stale 300 [.file "foo.mhubtmp.42" (some 301)] = ([], 1) ∧
    remove_stale 300 [.file "foo.mhubtmp.42" (some 300)]
      = ([FsTree.file "foo.mhubtmp.42" (some 300)], 0) := by
  refine ⟨?_, ?_, purgeChildren_count th l, rfl, rfl, rfl⟩
  · by_cases hb : (isTmpName name && isStale th age) = true
    · simp only [purgeTree, hb, if_true, true_iff]
      exact Bool.and_eq_true_iff.mp hb
    · simp only [purgeTree, hb, if_false, reduceCtorEq, false_iff]
      intro hcontra
      exact hb (Bool.and_eq_true_iff.mpr hcontra)
  · by_cases he : (purgeChildren th children).1.isEmpty = true
    · have hnil : (purgeChildren th children).1 = [] := by
        simpa [List.isEmpty_iff] using he
      simp [purgeTree, he, hnil]
    · have hne : (purgeChildren th children).1 ≠ [] := by
        simpa [List.isEmpty_iff] using he
      simp [purgeTree, he, hne]

/-- Counterexample to C8 as stated: the caller-visible result of
`purge_tmp` is the unit value — the removal count (1 here) is computed and
logged inside `remove_stale` but not returned to the caller; additionally a
tmp file with an unreadable mtime is removed even though its mtime is not
known to be older than 300 seconds. -/
theorem c8_counterexample :
    (purge_tmp [FsTree.file "foo.mhubtmp.42" (some 301)]).1 = () ∧
    (remove_stale 300 [FsTree.file "foo.mhubtmp.42" (some 301)]).2 = 1 ∧
    (purgeTree 300 (FsTree.file "a.mhubtmp.1" none)).1 = none :=
  ⟨rfl, rfl, rfl⟩

end Storage

namespace Bus

lemma busGet_busSet (bus : BusSt) (id : Nat) (st : ChannelSt) :
    busGet (busSet bus id st) id = some st := by
  induction bus with
  | nil => simp [busGet, busSet]
  | cons e rest ih =>
      by_cases h : e.1 = id
      · simp [busGet, busSet, h]
      · simp [busGet, busSet, h, ih]

lemma validate_capacity_ok (c : Nat) (hc : 1 ≤ c) :
    validate_capacity c = .ok c := by
  simp only [validate_capacity]
  rw [if_neg (by show ¬ (c < 1); omega)]

/-- C10: broadcast-publishing an event type with no registered channel
returns `Ok(0)` and registers a broadcast channel of default capacity 128 as
a side effect; consequently a later `subscribe_mpsc` or `subscribe_watch`
for the same type returns `ChannelKindMismatch` even though no subscriber
ever existed. -/
theorem c10_publish_registers_broadcast (bus : BusSt) (id c v : Nat)
    (h : busGet bus id = none) (hc : 1 ≤ c) :
    (publish_arc bus id).1 = .ok 0 ∧
    busGet (publish_arc bus id).2 id = some (.broadcast DEFAULT_CAPACITY 0) ∧
    (subscribe_mpsc (publish_arc bus id).2 id c).1
        = .error (.channelKindMismatch none) ∧
    (subscribe_watch (publish_arc bus id).2 id v).1
        = .error (.channelKindMismatch none) := by
  have hpub : publish_arc bus id
      = (.ok 0, busSet bus id (.broadcast DEFAULT_CAPACITY 0)) := by
    simp [publish_arc, ensure_channel, h]
  rw [hpub]
  refine ⟨rfl, busGet_busSet bus id _, ?_, ?_⟩
  · simp [subscribe_mpsc, take_mpsc_receiver, validate_capacity_ok c hc,
      busGet_busSet]
  · simp [subscribe_watch, ensure_channel, busGet_busSet]

/-- C5 (amended): while a channel entry for an event type exists — that is,
between its first registration and a `shutdown` — its kind is fixed: the
first subscribe or publish creates the entry with the requested kind, and
every later request with a different kind fails with `ChannelKindMismatch`.
(`shutdown` clears the registry, after which a new kind may be registered;
see the counterexample.) -/
theorem c5_kind_fixed_while_registered (bus : BusSt) (id c v : Nat)
    (st : ChannelSt) (h : busGet bus id = some st) (hc : 1 ≤ c) :
    (kindC st ≠ .broadcastC →
      (subscribe_with_capacity bus id c).1 = .error (.channelKindMismatch none) ∧
      (subscribe bus id).1 = .error (.channelKindMismatch none) ∧
      (publish_arc bus id).1 = .error (.channelKindMismatch none)) ∧
    (kindC st ≠ .mpscC →
      (subscribe_mpsc bus id c).1 = .error (.channelKindMismatch none) ∧
      (publish_mpsc_arc bus id v).1 = .error (.channelKindMismatch none)) ∧
    (kindC st ≠ .watchC →
      (subscribe_watch bus id v).1 = .error (.channelKindMismatch none) ∧
      (publish_watch_arc bus id v).1 = .error (.channelKindMismatch none)) ∧
    (∀ bus0 : BusSt, busGet bus0 id = none →
      (busGet (subscribe_with_capacity bus0 id c).2 id).map kindC
          = some .broadcastC ∧
      (busGet (subscribe_mpsc bus0 id c).2 id).map kindC = some .mpscC ∧
      (busGet (subscribe_watch bus0 id v).2 id).map kindC = some .watchC) := by
  have hv : validate_capacity c = .ok c := validate_capacity_ok c hc
  have hv128 : validate_capacity DEFAULT_CAPACITY = .ok DEFAULT_CAPACITY :=
    validate_capacity_ok _ (by decide)
  refine ⟨?_, ?_, ?_, ?_⟩
  · intro hk
    cases st with
    | broadcast cap recv => exact absurd rfl hk
    | mpsc m =>
        refine ⟨?_, ?_, ?_⟩ <;>
          simp [subscribe, subscribe_with_capacity, publish_arc, ensure_channel,
            h, hv, hv128]
    | watch w =>
        refine ⟨?_, ?_, ?_⟩ <;>
          simp [subscribe, subscribe_with_capacity, publish_arc, ensure_channel,
            h, hv, hv128]
  · intro hk
    cases st with
    | broadcast cap recv =>
        refine ⟨?_, ?_⟩ <;>
          simp [subscribe_mpsc, take_mpsc_receiver, publish_mpsc_arc,
            get_or_create_mpsc, h, hv, hv128]
    | mpsc m => exact absurd rfl hk
    | watch w =>
        refine ⟨?_, ?_⟩ <;>
          simp [subscribe_mpsc, take_mpsc_receiver, publish_mpsc_arc,
            get_or_create_mpsc, h, hv, hv128]
  · intro hk
    cases st with
    | broadcast cap recv =>
        refine ⟨?_, ?_⟩ <;>
          simp [subscribe_watch, publish_watch_arc, ensure_channel, h]
    | mpsc m =>
        refine ⟨?_, ?_⟩ <;>
          simp [subscribe_watch, publish_watch_arc, ensure_channel, h]
    | watch w => exact absurd rfl hk
  · intro bus0 h0
    refine ⟨?_, ?_, ?_⟩
    · simp [subscribe_with_capacity, ensure_channel, h0, hv, busGet_busSet, kindC]
    · simp [subscribe_mpsc, take_mpsc_receiver, h0, hv, busGet_busSet, kindC]
    · simp [subscribe_watch, ensure_channel, h0, busGet_busSet, kindC]

/-- Counterexample to C5 as stated: over the whole lifetime of one bus, the
kind for a type is not fixed — after a broadcast subscription, `shutdown`
clears the registry, and a queue subscription for the same type then succeeds
instead of returning `ChannelKindMismatch`. -/
theorem c5_counterexample :
    (subscribe ([] : BusSt) 0).1 = .ok () ∧
    (subscribe_mpsc (shutdown (subscribe ([] : BusSt) 0).2).2 0 8).1
        = .ok () := by
  exact ⟨rfl, rfl⟩

/-- C7 (amended): the queue receiver for a type can be taken at most once
while its channel entry exists: the first `subscribe_mpsc` returns the
receiver, and every subsequent call returns `ChannelKindMismatch` whose
message is the literal "MPSC receiver already taken" (the message has an
"MPSC " prefix on top of the wording in the claim), leaving the registry
unchanged. -/
theorem c7_queue_receiver_taken_once (bus : BusSt) (id c c2 : Nat)
    (h : busGet bus id = none) (hc : 1 ≤ c) (hc2 : 1 ≤ c2) :
    (subscribe_mpsc bus id c).1 = .ok () ∧
    (subscribe_mpsc (subscribe_mpsc bus id c).2 id c2).1
        = .error (.channelKindMismatch (some "MPSC receiver already taken")) ∧
    (subscribe_mpsc (subscribe_mpsc bus id c).2 id c2).2
        = (subscribe_mpsc bus id c).2 := by
  have hv : validate_capacity c = .ok c := validate_capacity_ok c hc
  have hv2 : validate_capacity c2 = .ok c2 := validate_capacity_ok c2 hc2
  have hfirst : subscribe_mpsc bus id c
      = (.ok (), busSet bus id (.mpsc
          { capacity := c, queue := [], receiverPresent := false, taken := true })) := by
    simp [subscribe_mpsc, take_mpsc_receiver, h, hv]
  rw [hfirst]
  refine ⟨rfl, ?_, ?_⟩ <;>
    simp [subscribe_mpsc, take_mpsc_receiver, hv2, busGet_busSet]

/-- Counterexample to C7 as stated: the second take fails with message
"MPSC receiver already taken", which is not the claimed string
"receiver already taken". -/
theorem c7_counterexample :
    (subscribe_mpsc (subscribe_mpsc ([] : BusSt) 0 4).2 0 4).1
        = .error (.channelKindMismatch (some "MPSC receiver already taken")) ∧
    "MPSC receiver already taken" ≠ "receiver already taken" := by
  refine ⟨rfl, by decide⟩

/-- Witness for C10: on an empty bus, publishing type 7 returns 0, registers
a default broadcast channel, and blocks the other kinds. -/
theorem c10_publish_registers_broadcast_witness :
    (publish_arc ([] : BusSt) 7).1 = .ok 0 ∧
    busGet (publish_arc ([] : BusSt) 7).2 7
        = some (.broadcast DEFAULT_CAPACITY 0) ∧
    (subscribe_mpsc (publish_arc ([] : BusSt) 7).2 7 4).1
        = .error (.channelKindMismatch none) ∧
    (subscribe_watch (publish_arc ([] : BusSt) 7).2 7 1).1
        = .error (.channelKindMismatch none) :=
  c10_publish_registers_broadcast [] 7 4 1 rfl (by decide)

/-- Witness for C5 (amended): on a bus whose type-5 slot holds a watch
channel, a queue subscription and a broadcast publish both fail with
`ChannelKindMismatch`. -/
theorem c5_kind_fixed_while_registered_witness :
    (subscribe_mpsc [(5, ChannelSt.watch 0)] 5 8).1
        = .error (.channelKindMismatch none) ∧
    (publish_arc [(5, ChannelSt.watch 0)] 5).1
        = .error (.channelKindMismatch none) := by
  have h := c5_kind_fixed_while_registered [(5, ChannelSt.watch 0)] 5 8 3
    (ChannelSt.watch 0) rfl (by decide)
  exact ⟨(h.2.1 (by decide)).1, (h.1 (by decide)).2.2⟩

/-- Witness for C7 (amended): concrete double take on an empty bus. -/
theorem c7_queue_receiver_taken_once_witness :
    (subscribe_mpsc ([] : BusSt) 3 4).1 = .ok () ∧
    (subscribe_mpsc (subscribe_mpsc ([] : BusSt) 3 4).2 3 4).1
        = .error (.channelKindMismatch (some "MPSC receiver already taken")) ∧
    (subscribe_mpsc (subscribe_mpsc ([] : BusSt) 3 4).2 3 4).2
        = (subscribe_mpsc ([] : BusSt) 3 4).2 :=
  c7_queue_receiver_taken_once [] 3 4 4 rfl (by decide) (by decide)

end Bus

namespace License

lemma hwLoop_cases (current : List (List Char)) (min_matches : Nat) :
    ∀ (ids : List (List Char)) (best : Nat),
      (∀ id ∈ ids, ∃ ps, parse_machine_id_compound id = .ok ps) →
      (hwLoop current min_matches ids best = .ok () ↔
        ids ≠ [] ∧ (min_matches ≤ best ∨ ∃ id ∈ ids, ∃ ps,
          parse_machine_id_compound id = .ok ps ∧
            min_matches ≤ matchScore current ps)) ∧
      (hwLoop current min_matches ids best = .ok () ∨
        hwLoop current min_matches ids best = .error .hardwareMismatch) := by
  intro ids
  induction ids with
  | nil =>
      intro best _
      refine ⟨?_, Or.inr rfl⟩
      simp [hwLoop]
  | cons id rest ih =>
      intro best hids
      obtain ⟨ps, hps⟩ := hids id (by simp)
      have hrest : ∀ i ∈ rest, ∃ ps', parse_machine_id_compound i = .ok ps' :=
        fun i hi => hids i (List.mem_cons_of_mem _ hi)
      by_cases hle : min_matches ≤ max best (matchScore current ps)
      · have hok : hwLoop current min_matches (id :: rest) best = .ok () := by
          simp only [hwLoop, hps]
          rw [if_pos hle]
        refine ⟨?_, Or.inl hok⟩
        rw [hok]
        simp only [true_iff, ne_eq, reduceCtorEq, not_false_iff, true_and]
        rcases le_max_iff.mp hle with hb | hs
        · exact Or.inl hb
        · exact Or.inr ⟨id, by simp, ps, hps, hs⟩
      · have hstep : hwLoop current min_matches (id :: rest) best
            = hwLoop current min_matches rest (max best (matchScore current ps)) := by
          simp only [hwLoop, hps]
          rw [if_neg hle]
        have ih' := ih (max best (matchScore current ps)) hrest
        have hnb : ¬ min_matches ≤ best := fun hcontra =>
          hle (le_max_iff.mpr (Or.inl hcontra))
        have hns : ¬ min_matches ≤ matchScore current ps := fun hcontra =>
          hle (le_max_iff.mpr (Or.inr hcontra))
        refine ⟨?_, ?_⟩
        · rw [hstep, ih'.1]
          constructor
          · rintro ⟨hne, hor⟩
            rcases hor with hb | ⟨i, hi, ps', hps', hle'⟩
            · exact absurd hb hle
            · exact ⟨by simp, Or.inr ⟨i, List.mem_cons_of_mem _ hi, ps', hps', hle'⟩⟩
          · rintro ⟨_, hor⟩
            rcases hor with hb | ⟨i, hi, ps', hps', hle'⟩
            · exact absurd hb hnb
            · rcases List.mem_cons.mp hi with hhead | htail
              · subst hhead
                have hps'' := hps'.symm.trans hps
                have hpe : ps' = ps := by injection hps''
                subst hpe
                exact absurd hle' hns
              · exact ⟨List.ne_nil_of_mem htail,
                  Or.inr ⟨i, htail, ps', hps', hle'⟩⟩
        · rw [hstep]
          exact ih'.2

/-- C6 (amended): for a `Threshold` constraint whose allowed ids all parse
(and whose current compound id parses into `current`), validation succeeds
exactly when some allowed id's component-set intersection with the current
components reaches `min_matches` (the loop returns as soon as the running
best does); otherwise it fails with `HardwareMismatch`.  In particular an
empty `ids` list always fails with `HardwareMismatch`, even when
`min_matches = 0` (when the claimed `best = 0 ≥ min_matches` would hold). -/
theorem c6_threshold_hardware_check (cc : List Char)
    (current : List (List Char)) (ids : List (List Char)) (min_matches : Nat)
    (hcc : parse_machine_id_compound cc = .ok current)
    (hids : ∀ id ∈ ids, ∃ ps, parse_machine_id_compound id = .ok ps) :
    (validate_hardware (.ok cc) (.threshold ids min_matches) = .ok () ↔
      ∃ id ∈ ids, ∃ ps, parse_machine_id_compound id = .ok ps ∧
        min_matches ≤ matchScore current ps) ∧
    (validate_hardware (.ok cc) (.threshold ids min_matches) = .ok () ∨
      validate_hardware (.ok cc) (.threshold ids min_matches)
        = .error .hardwareMismatch) ∧
    validate_hardware (.ok cc) (.threshold [] min_matches)
      = .error .hardwareMismatch := by
  have hmain := hwLoop_cases current min_matches ids 0 hids
  have hunfold : validate_hardware (.ok cc) (.threshold ids min_matches)
      = hwLoop current min_matches ids 0 := by
    simp [validate_hardware, hcc]
  refine ⟨?_, ?_, ?_⟩
  · rw [hunfold, hmain.1]
    constructor
    · rintro ⟨hne, hor⟩
      rcases hor with hb | hex
      · cases ids with
        | nil => exact absurd rfl hne
        | cons i rest =>
            obtain ⟨ps, hps⟩ := hids i (by simp)
            exact ⟨i, by simp, ps, hps, by omega⟩
      · exact hex
    · rintro ⟨i, hi, ps, hps, hle⟩
      exact ⟨List.ne_nil_of_mem hi, Or.inr ⟨i, hi, ps, hps, hle⟩⟩
  · rw [hunfold]
    exact hmain.2
  · simp [validate_hardware, hcc, hwLoop]

/-- Witness for C6 (amended): the spec's own scenario — one allowed compound
id sharing two of three components with the current machine, threshold 2 —
validates successfully. -/
theorem c6_threshold_hardware_check_witness :
    validate_hardware (.ok ("v1:a|b|c".toList))
        (.threshold [("v1:a|b|x".toList)] 2) = .ok () :=
  (c6_threshold_hardware_check ("v1:a|b|c".toList) [['a'], ['b'], ['c']]
      [("v1:a|b|x".toList)] 2 rfl
      (by
        intro id hid
        rw [List.mem_singleton] at hid
        subst hid
        exact ⟨[['a'], ['b'], ['x']], rfl⟩)).1.mpr
    ⟨("v1:a|b|x".toList), by simp, [['a'], ['b'], ['x']], rfl, by decide⟩

/-- Counterexample to C6 as stated: with an empty allowed-id list and
`min_matches = 0`, the best match (a maximum over no ids) is 0 and
`best < min_matches` is false, yet the validator returns
`HardwareMismatch` — the loop never runs and the post-loop failure is
unconditional. -/
theorem c6_counterexample :
    validate_hardware (.ok ("v1:a|b|c".toList))
        (.threshold [] 0) = .error .hardwareMismatch ∧ ¬ ((0 : Nat) < 0) := by
  exact ⟨rfl, by omega⟩

end License

end MHub
